import Mathlib

/-!
Shallow embedding of `scripts/concatenate_lib_classes.py`.

The script (19 lines of Python) computes three paths from its own location
(`script_dir = dirname(dirname(abspath(__file__)))`, then `src`, `tests`,
`classes.txt` under it), opens `classes.txt` in truncate-write mode, writes
the contents of every `*.ts` glob match of `src/` each followed by one
newline, then re-opens `classes.txt` in append mode and does the same for
the `*.ts` glob matches of `tests/`.

Embedding choices, each traceable to a line of the source:

* Paths are component lists (`OsPath := List String`); `os.path.dirname`
  drops the last component and `os.path.join` with a single name appends
  one component, which is exact for the absolute, separator-free component
  names the script uses.
* A directory listing is a `List (String × Option String)`: filenames in
  filesystem enumeration order, paired with the result of reading the
  file — `some c` for a successful text read of content `c`, `none` for an
  entry whose processing raises an OSError (unreadable file, file deleted
  between listing and reading, or a failing write of its block).
* `glob.glob(dir + "/*.ts")` returns `[]` when `dir` does not exist (the
  Python `glob` module reports no error for a missing directory), and
  otherwise the entries of `dir` whose name matches the pattern `*.ts`,
  in enumeration order.  The pattern semantics is fnmatch plus glob's
  hidden-file rule: `*` matches any sequence, so a name matches iff it
  ends in `.ts`, except that a leading-dot name is never matched because
  the pattern does not itself start with a dot.
* The two `with open(output_file, ...)` blocks become `phases`: the first
  folds over the `src/` matches starting from the empty accumulated
  output (truncate-write mode), the second continues from the first
  block's result (append mode).  An uncaught exception stops the run at
  the failing entry; what was accumulated so far is what the output file
  holds, since nothing is buffered in the model.
* The whole filesystem state `FS` carries the `src/` and `tests/` listings
  (`none` = directory missing) and the files of the root directory, where
  `classes.txt` lives.  `run` is the script as a state transformer: it
  writes the accumulated output to `classes.txt` and reports whether the
  interpreter exited normally.
-/

abbrev OsPath := List String

/-- Component-list model of `os.path.dirname`: drop the last component. -/
def os_path_dirname (p : OsPath) : OsPath := p.dropLast

/-- Component-list model of `os.path.join` with one relative name. -/
def os_path_join (p : OsPath) (name : String) : OsPath := p ++ [name]

/-- Absolute path of the script itself: `<root>/scripts/concatenate_lib_classes.py`
(the repository layout in which the script is stored). -/
def scriptAbsPath (root : OsPath) : OsPath :=
  os_path_join (os_path_join root "scripts") "concatenate_lib_classes.py"

/-- Line 4: `script_dir = os.path.dirname(os.path.dirname(os.path.abspath(__file__)))`. -/
def script_dir (root : OsPath) : OsPath :=
  os_path_dirname (os_path_dirname (scriptAbsPath root))

/-- Line 5: `source_folder = os.path.join(script_dir, 'src')`. -/
def source_folder (root : OsPath) : OsPath := os_path_join (script_dir root) "src"

/-- Line 6: `test_folder = os.path.join(script_dir, 'tests')`. -/
def test_folder (root : OsPath) : OsPath := os_path_join (script_dir root) "tests"

/-- Line 7: `output_file = os.path.join(script_dir, 'classes.txt')`. -/
def output_file (root : OsPath) : OsPath := os_path_join (script_dir root) "classes.txt"

/-- Whether a filename begins with a dot (a hidden file on POSIX). -/
def startsWithDot : List Char → Bool
  | [] => false
  | c :: _ => c == '.'

/-- Semantics of the glob pattern `*.ts` for one filename: fnmatch lets `*`
match any character sequence, so the name must end in `.ts`; glob's
hidden-file rule additionally rejects any name starting with a dot,
because the pattern itself does not start with one. -/
def matchesTsGlob (name : String) : Bool :=
  List.isSuffixOf ".ts".data name.data && !startsWithDot name.data

/-- One directory entry: filename and the outcome of processing it
(`some c` = content read and written successfully, `none` = OSError). -/
abbrev Entry := String × Option String

/-- Lines 10 and 16: `glob.glob(os.path.join(folder, '*.ts'))` over a
directory listing; a missing directory (`none`) yields no matches and no
error, mirroring the Python `glob` module. -/
def globTs (d : Option (List Entry)) : List Entry :=
  (d.getD []).filter (fun e => matchesTsGlob e.1)

/-- Result of running one or both concatenation loops: the accumulated
output-file content, and whether an uncaught OSError aborted the run. -/
inductive Outcome where
  | success (content : String)
  | error (content : String)

/-- Content the output file holds when the loops stop, aborted or not. -/
def Outcome.content : Outcome → String
  | .success s => s
  | .error s => s

/-- Whether the interpreter exits normally (exit status 0). -/
def Outcome.isSuccess : Outcome → Bool
  | .success _ => true
  | .error _ => false

/-- Lines 10-13 (and 16-19): the loop body `outfile.write(infile.read());
outfile.write('\n')` over the glob matches, starting from the output
already accumulated; an entry whose read or write raises stops the loop
with the output written so far. -/
def processFiles : List Entry → String → Outcome
  | [], acc => .success acc
  | (_, none) :: _, acc => .error acc
  | (_, some c) :: rest, acc => processFiles rest (acc ++ c ++ "\n")

/-- Lines 9-19: the first `with` block opens the output in truncate-write
mode (accumulator starts empty) and processes the `src/` matches; if it
completes, the second block opens in append mode (accumulator continues
from the first block's output) and processes the `tests/` matches.  An
error in the first block prevents the second from running. -/
def phases (srcMatches testMatches : List Entry) : Outcome :=
  match processFiles srcMatches "" with
  | .error p => .error p
  | .success p => processFiles testMatches p

/-- Filesystem state around the script: the `src/` and `tests/` directory
listings (`none` = directory absent) and the files of the root directory,
which is where `classes.txt` is created. -/
structure FS where
  srcDir : Option (List Entry)
  testsDir : Option (List Entry)
  rootFiles : List (String × String)

/-- Write a file into a directory listing: overwrite the entry of that
name if present, else create it. -/
def setFile : List (String × String) → String → String → List (String × String)
  | [], n, c => [(n, c)]
  | (m, d) :: rest, n, c =>
    if m = n then (n, c) :: rest else (m, d) :: setFile rest n c

/-- Read a file from a directory listing by name. -/
def getFile : List (String × String) → String → Option String
  | [], _ => none
  | (m, d) :: rest, n => if m = n then some d else getFile rest n

/-- The whole script as a state transformer: run both concatenation
phases over the glob matches of `src/` and `tests/`, store the
accumulated output in `classes.txt` in the root directory, and report
whether the interpreter exited normally. -/
def run (fs : FS) : FS × Bool :=
  let r := phases (globTs fs.srcDir) (globTs fs.testsDir)
  ({ fs with rootFiles := setFile fs.rootFiles "classes.txt" r.content },
   r.isSuccess)

/-- Reference concatenation: each entry's content followed by exactly one
newline, in list order. -/
def blocksJoin : List Entry → String
  | [] => ""
  | e :: rest => e.2.getD "" ++ "\n" ++ blocksJoin rest

/-- Both `with` blocks, but starting from an arbitrary already-written
output `acc`; `phases` is the instance with the truncated (empty) start. -/
def phasesFrom (A B : List Entry) (acc : String) : Outcome :=
  match processFiles A acc with
  | .error p => .error p
  | .success p => processFiles B p

/-- Concrete state: one readable `.ts` file in each directory, plus an
unrelated root file. -/
def fsA : FS :=
  ⟨some [("a.ts", some "A")], some [("b.ts", some "B")], [("notes.txt", "keep")]⟩

/-- Concrete state: `src/` directory absent, one readable test file, a
stale `classes.txt` from an earlier run. -/
def fsMissing : FS :=
  ⟨none, some [("b.ts", some "B")], [("classes.txt", "old")]⟩

/-- Concrete state: both `src/` and `tests/` absent. -/
def fsBoth : FS := ⟨none, none, [("classes.txt", "old")]⟩

/-- Concrete state: `tests/` absent while `src/` is present and readable. -/
def fsT : FS := ⟨some [("a.ts", some "A")], none, []⟩

/-- Concrete state: `src/` readable, but the first test file raises an
OSError when processed. -/
def fsErr : FS :=
  ⟨some [("a.ts", some "A")], some [("bad.ts", none), ("c.ts", some "C")], []⟩

/-- Concrete state: `src/` exists but has no `*.ts` match; `tests/` has one. -/
def fsB : FS :=
  ⟨some [("readme.md", some "R")], some [("b.ts", some "B")], []⟩

/-- Concrete state: `src/` has one readable `*.ts` match; `tests/` exists
but has no match. -/
def fsC : FS :=
  ⟨some [("a.ts", some "A")], some [("notes.md", some "N")], []⟩

theorem phases_eq_phasesFrom (A B : List Entry) : phases A B = phasesFrom A B "" := rfl

theorem getFile_setFile_self (l : List (String × String)) (n c : String) :
    getFile (setFile l n c) n = some c := by
  induction l with
  | nil => simp [setFile, getFile]
  | cons e rest ih =>
    obtain ⟨m, d⟩ := e
    by_cases h : m = n
    · simp [setFile, getFile, h]
    · simp [setFile, getFile, h, ih]

theorem getFile_setFile_ne (l : List (String × String)) (n c m : String)
    (h : m ≠ n) : getFile (setFile l n c) m = getFile l m := by
  induction l with
  | nil => simp [setFile, getFile, Ne.symm h]
  | cons e rest ih =>
    obtain ⟨k, d⟩ := e
    by_cases hk : k = n
    · subst hk
      simp [setFile, getFile, h, Ne.symm h]
    · simp [setFile, getFile, hk, ih]

theorem processFiles_all_some (files : List Entry) :
    ∀ acc : String, (∀ e ∈ files, e.2.isSome) →
      processFiles files acc = .success (acc ++ blocksJoin files) := by
  induction files with
  | nil => intro acc _; simp [processFiles, blocksJoin, String.append_empty]
  | cons e rest ih =>
    intro acc h
    obtain ⟨n, oc⟩ := e
    cases oc with
    | none => exact absurd (h (n, none) (by simp)) (by simp)
    | some c =>
      have hr := ih (acc ++ c ++ "\n") (fun e he => h e (List.mem_cons_of_mem _ he))
      simp only [String.append_assoc] at hr
      simp [processFiles, blocksJoin, hr, String.append_assoc]

theorem processFiles_extends (files : List Entry) :
    ∀ acc : String, ∃ r, (processFiles files acc).content = acc ++ r := by
  induction files with
  | nil =>
    intro acc
    exact ⟨"", by simp [processFiles, Outcome.content, String.append_empty]⟩
  | cons e rest ih =>
    intro acc
    obtain ⟨n, oc⟩ := e
    cases oc with
    | none =>
      exact ⟨"", by simp [processFiles, Outcome.content, String.append_empty]⟩
    | some c =>
      obtain ⟨r, hr⟩ := ih (acc ++ c ++ "\n")
      refine ⟨c ++ "\n" ++ r, ?_⟩
      simp only [String.append_assoc] at hr
      simp [processFiles, hr, String.append_assoc]

theorem processFiles_error_split (post : List Entry) (n : String)
    (pre : List Entry) :
    ∀ acc : String, (∀ e ∈ pre, e.2.isSome) →
      processFiles (pre ++ (n, none) :: post) acc = .error (acc ++ blocksJoin pre) := by
  induction pre with
  | nil => intro acc _; simp [processFiles, blocksJoin, String.append_empty]
  | cons e rest ih =>
    intro acc h
    obtain ⟨m, oc⟩ := e
    cases oc with
    | none => exact absurd (h (m, none) (by simp)) (by simp)
    | some c =>
      have hr := ih (acc ++ c ++ "\n") (fun e he => h e (List.mem_cons_of_mem _ he))
      simp only [String.append_assoc] at hr
      simp [processFiles, blocksJoin, hr, String.append_assoc]

theorem phasesFrom_error_split (A : List Entry) :
    ∀ (B pre post : List Entry) (n acc : String),
      A ++ B = pre ++ (n, none) :: post → (∀ e ∈ pre, e.2.isSome) →
      phasesFrom A B acc = .error (acc ++ blocksJoin pre) := by
  induction A with
  | nil =>
    intro B pre post n acc hAB hpre
    simp only [List.nil_append] at hAB
    subst hAB
    simp [phasesFrom, processFiles, processFiles_error_split post n pre acc hpre]
  | cons e A' ih =>
    intro B pre post n acc hAB hpre
    obtain ⟨m, oc⟩ := e
    cases pre with
    | nil =>
      simp only [List.cons_append, List.nil_append, List.cons.injEq,
        Prod.mk.injEq] at hAB
      obtain ⟨⟨hm, hoc⟩, hrest⟩ := hAB
      subst hoc
      simp [phasesFrom, processFiles, blocksJoin, String.append_empty]
    | cons p pre' =>
      obtain ⟨m', oc'⟩ := p
      simp only [List.cons_append, List.cons.injEq, Prod.mk.injEq] at hAB
      obtain ⟨⟨hm, hoc⟩, hrest⟩ := hAB
      have hps : oc'.isSome := hpre (m', oc') (by simp)
      obtain ⟨c, hc⟩ := Option.isSome_iff_exists.mp hps
      subst hc hoc
      have hr := ih B pre' post n (acc ++ c ++ "\n") hrest
        (fun e he => hpre e (List.mem_cons_of_mem _ he))
      have hstep : phasesFrom ((m, some c) :: A') B acc
          = phasesFrom A' B (acc ++ c ++ "\n") := rfl
      rw [hstep, hr]
      simp [blocksJoin, String.append_assoc]

example : matchesTsGlob "a.ts" = true := by decide

example : matchesTsGlob ".hidden.ts" = false := by decide

example : matchesTsGlob "classes.txt" = false := by decide

example :
    run ⟨some [("a.ts", some "A")], some [("b.ts", some "B")], []⟩ =
      (⟨some [("a.ts", some "A")], some [("b.ts", some "B")],
        [("classes.txt", "A\nB\n")]⟩, true) := by
  simp [run, phases, globTs, processFiles, setFile, matchesTsGlob, startsWithDot,
    Outcome.content, Outcome.isSuccess]

theorem script_dir_eq (root : OsPath) : script_dir root = root := by
  simp [script_dir, scriptAbsPath, os_path_dirname, os_path_join]

theorem mem_globTs (d : Option (List Entry)) (e : Entry) (he : e ∈ globTs d) :
    matchesTsGlob e.1 = true := by
  simp only [globTs] at he
  exact (List.mem_filter.mp he).2

/-- C1: when `src/` and `tests/` both exist and every matched file is
readable, the run exits normally and `classes.txt` holds exactly the
`src/` matches' contents, each followed by one newline, in enumeration
order, then the `tests/` matches' contents likewise — no header,
delimiter, or filename marker in between (`blocksJoin` inserts nothing
but the single newline after each content block). -/
theorem run_writes_concatenation (fs : FS)
    (hs : fs.srcDir.isSome) (ht : fs.testsDir.isSome)
    (hok : ∀ e ∈ globTs fs.srcDir ++ globTs fs.testsDir, e.2.isSome) :
    (run fs).2 = true ∧
    getFile (run fs).1.rootFiles "classes.txt" =
      some (blocksJoin (globTs fs.srcDir) ++ blocksJoin (globTs fs.testsDir)) := by
  have h1 : ∀ e ∈ globTs fs.srcDir, e.2.isSome :=
    fun e he => hok e (List.mem_append_left _ he)
  have h2 : ∀ e ∈ globTs fs.testsDir, e.2.isSome :=
    fun e he => hok e (List.mem_append_right _ he)
  have hp1 := processFiles_all_some (globTs fs.srcDir) "" h1
  rw [String.empty_append] at hp1
  have hp2 := processFiles_all_some (globTs fs.testsDir)
    (blocksJoin (globTs fs.srcDir)) h2
  have hph : phases (globTs fs.srcDir) (globTs fs.testsDir) =
      .success (blocksJoin (globTs fs.srcDir) ++ blocksJoin (globTs fs.testsDir)) := by
    simp [phases, hp1, hp2]
  constructor
  · simp [run, hph, Outcome.isSuccess]
  · simp [run, hph, Outcome.content, getFile_setFile_self]

theorem run_writes_concatenation_witness :
    (fsA.srcDir.isSome ∧ fsA.testsDir.isSome ∧
      ∀ e ∈ globTs fsA.srcDir ++ globTs fsA.testsDir, e.2.isSome) ∧
    ((run fsA).2 = true ∧
      getFile (run fsA).1.rootFiles "classes.txt" =
        some (blocksJoin (globTs fsA.srcDir) ++ blocksJoin (globTs fsA.testsDir))) :=
  ⟨⟨by decide, by decide, by decide⟩,
    run_writes_concatenation fsA (by decide) (by decide) (by decide)⟩

/-- C2 counterexample: with `src/` absent, Python's `glob.glob` simply
returns no matches and raises nothing, so the run exits normally (status
true, not a directory-not-found error) and the output file is still
produced — here overwriting the stale content `"old"` with `"B\n"` —
refuting both parts of the claim at this concrete state. -/
theorem missing_src_is_not_an_error :
    (run fsMissing).2 = true ∧
    getFile (run fsMissing).1.rootFiles "classes.txt" = some "B\n" := by
  constructor
  · decide
  · decide

/-- C2 amended: if `src/` or `tests/` does not exist, the run behaves
exactly as if the missing directory were present but empty — no error is
raised, the output file is still created or truncated, and its content
and the exit status are those of the empty-directory run; when both
directories are missing, the run succeeds and the output file is written
empty. -/
theorem missing_dir_treated_as_empty (fs : FS) :
    (fs.srcDir = none →
      (run fs).1.rootFiles = (run { fs with srcDir := some [] }).1.rootFiles ∧
      (run fs).2 = (run { fs with srcDir := some [] }).2) ∧
    (fs.testsDir = none →
      (run fs).1.rootFiles = (run { fs with testsDir := some [] }).1.rootFiles ∧
      (run fs).2 = (run { fs with testsDir := some [] }).2) ∧
    (fs.srcDir = none → fs.testsDir = none →
      (run fs).2 = true ∧
      getFile (run fs).1.rootFiles "classes.txt" = some "") := by
  refine ⟨fun hsn => ⟨?_, ?_⟩, fun htn => ⟨?_, ?_⟩, fun hsn htn => ⟨?_, ?_⟩⟩
  · simp [run, globTs, hsn]
  · simp [run, globTs, hsn]
  · simp [run, globTs, htn]
  · simp [run, globTs, htn]
  · simp [run, globTs, hsn, htn, phases, processFiles, Outcome.isSuccess]
  · simp [run, globTs, hsn, htn, phases, processFiles, Outcome.content,
      getFile_setFile_self]

theorem missing_dir_treated_as_empty_witness :
    (fsBoth.srcDir = none ∧ fsBoth.testsDir = none ∧ fsT.testsDir = none) ∧
    ((run fsBoth).1.rootFiles =
        (run { fsBoth with srcDir := some [] }).1.rootFiles ∧
      (run fsT).1.rootFiles =
        (run { fsT with testsDir := some [] }).1.rootFiles ∧
      (run fsT).2 = (run { fsT with testsDir := some [] }).2 ∧
      (run fsBoth).2 = true ∧
      getFile (run fsBoth).1.rootFiles "classes.txt" = some "") :=
  ⟨⟨by decide, by decide, by decide⟩,
    ((missing_dir_treated_as_empty fsBoth).1 (by decide)).1,
    ((missing_dir_treated_as_empty fsT).2.1 (by decide)).1,
    ((missing_dir_treated_as_empty fsT).2.1 (by decide)).2,
    ((missing_dir_treated_as_empty fsBoth).2.2 (by decide) (by decide)).1,
    ((missing_dir_treated_as_empty fsBoth).2.2 (by decide) (by decide)).2⟩

/-- C3: running the script twice on an unchanged filesystem yields a
byte-identical `classes.txt` both times, because a run never modifies
`src/` or `tests/` — in particular the first run's output, which lives in
the root directory, is never among the second run's glob inputs. -/
theorem run_idempotent (fs : FS) :
    getFile ((run (run fs).1).1.rootFiles) "classes.txt" =
      getFile ((run fs).1.rootFiles) "classes.txt" ∧
    (run (run fs).1).2 = (run fs).2 ∧
    (run fs).1.srcDir = fs.srcDir ∧ (run fs).1.testsDir = fs.testsDir := by
  refine ⟨?_, rfl, rfl, rfl⟩
  simp [run, getFile_setFile_self]

/-- C4: the script derives all three paths from a single root — the
directory two levels up from its own file — as `root/src`, `root/tests`
and `root/classes.txt`; the definitions take no argument or environment
beyond the script location itself. -/
theorem paths_derived_from_script_location (root : OsPath) :
    script_dir root = root ∧
    source_folder root = root ++ ["src"] ∧
    test_folder root = root ++ ["tests"] ∧
    output_file root = root ++ ["classes.txt"] := by
  refine ⟨script_dir_eq root, ?_, ?_, ?_⟩ <;>
    simp [source_folder, test_folder, output_file, os_path_join, script_dir_eq]

/-- C5: a run leaves `src/` and `tests/` untouched, leaves every root
file other than `classes.txt` unchanged, and sets `classes.txt` to a
value computed solely from the `src/` and `tests/` glob matches — the
prior content of `classes.txt` is never preserved or appended to. -/
theorem run_frame (fs : FS) :
    (run fs).1.srcDir = fs.srcDir ∧
    (run fs).1.testsDir = fs.testsDir ∧
    (∀ n, n ≠ "classes.txt" →
      getFile (run fs).1.rootFiles n = getFile fs.rootFiles n) ∧
    getFile (run fs).1.rootFiles "classes.txt" =
      some (phases (globTs fs.srcDir) (globTs fs.testsDir)).content := by
  refine ⟨rfl, rfl, ?_, ?_⟩
  · intro n hn
    simp [run, getFile_setFile_ne _ _ _ _ hn]
  · simp [run, getFile_setFile_self]

theorem run_frame_witness :
    ("notes.txt" ≠ "classes.txt") ∧
    getFile (run fsA).1.rootFiles "notes.txt" = getFile fsA.rootFiles "notes.txt" :=
  ⟨by decide, (run_frame fsA).2.2.1 "notes.txt" (by decide)⟩

/-- C6: when both directories exist but one or both have no `*.ts`
match (and every match that does exist is readable), the run is not an
error: it exits normally; with no `src/` match the output is exactly
the `tests/` concatenation (so it begins with the first matched test
file's content), with no `tests/` match it is exactly the `src/`
concatenation, and with no match on either side the output file is
written empty. -/
theorem no_matches_not_an_error (fs : FS)
    (hs : fs.srcDir.isSome) (ht : fs.testsDir.isSome)
    (hnm : globTs fs.srcDir = [] ∨ globTs fs.testsDir = [])
    (hok : ∀ e ∈ globTs fs.srcDir ++ globTs fs.testsDir, e.2.isSome) :
    (run fs).2 = true ∧
    (globTs fs.srcDir = [] →
      getFile (run fs).1.rootFiles "classes.txt" =
        some (blocksJoin (globTs fs.testsDir))) ∧
    (globTs fs.testsDir = [] →
      getFile (run fs).1.rootFiles "classes.txt" =
        some (blocksJoin (globTs fs.srcDir))) ∧
    (globTs fs.srcDir = [] → globTs fs.testsDir = [] →
      getFile (run fs).1.rootFiles "classes.txt" = some "") := by
  have h1 : ∀ e ∈ globTs fs.srcDir, e.2.isSome :=
    fun e he => hok e (List.mem_append_left _ he)
  have h2 : ∀ e ∈ globTs fs.testsDir, e.2.isSome :=
    fun e he => hok e (List.mem_append_right _ he)
  have hp1 := processFiles_all_some (globTs fs.srcDir) "" h1
  rw [String.empty_append] at hp1
  have hp2 := processFiles_all_some (globTs fs.testsDir)
    (blocksJoin (globTs fs.srcDir)) h2
  have hph : phases (globTs fs.srcDir) (globTs fs.testsDir) =
      .success (blocksJoin (globTs fs.srcDir) ++ blocksJoin (globTs fs.testsDir)) := by
    simp [phases, hp1, hp2]
  have hc : getFile (run fs).1.rootFiles "classes.txt" =
      some (blocksJoin (globTs fs.srcDir) ++ blocksJoin (globTs fs.testsDir)) := by
    simp [run, hph, Outcome.content, getFile_setFile_self]
  refine ⟨?_, fun hse => ?_, fun hte => ?_, fun hse hte => ?_⟩
  · simp [run, hph, Outcome.isSuccess]
  · rw [hc, hse]
    simp [blocksJoin, String.empty_append]
  · rw [hc, hte]
    simp [blocksJoin, String.append_empty]
  · rw [hc, hse, hte]
    simp [blocksJoin, String.append_empty]

theorem no_matches_not_an_error_witness :
    ((fsB.srcDir.isSome ∧ fsB.testsDir.isSome ∧
        (globTs fsB.srcDir = [] ∨ globTs fsB.testsDir = []) ∧
        ∀ e ∈ globTs fsB.srcDir ++ globTs fsB.testsDir, e.2.isSome) ∧
      (fsC.srcDir.isSome ∧ fsC.testsDir.isSome ∧
        (globTs fsC.srcDir = [] ∨ globTs fsC.testsDir = []) ∧
        ∀ e ∈ globTs fsC.srcDir ++ globTs fsC.testsDir, e.2.isSome)) ∧
    ((run fsB).2 = true ∧
      getFile (run fsB).1.rootFiles "classes.txt" =
        some (blocksJoin (globTs fsB.testsDir)) ∧
      (run fsC).2 = true ∧
      getFile (run fsC).1.rootFiles "classes.txt" =
        some (blocksJoin (globTs fsC.srcDir))) :=
  ⟨⟨⟨by decide, by decide, by decide, by decide⟩,
    ⟨by decide, by decide, by decide, by decide⟩⟩,
    (no_matches_not_an_error fsB (by decide) (by decide) (by decide) (by decide)).1,
    (no_matches_not_an_error fsB (by decide) (by decide) (by decide)
      (by decide)).2.1 (by decide),
    (no_matches_not_an_error fsC (by decide) (by decide) (by decide) (by decide)).1,
    (no_matches_not_an_error fsC (by decide) (by decide) (by decide)
      (by decide)).2.2.1 (by decide)⟩

/-- C7: if the combined match list splits as some readable entries, then
an entry whose processing raises an OSError, the run aborts there —
nothing is caught or retried, the interpreter exits abnormally — and the
output file holds exactly the blocks of the entries processed before the
failure, nothing of the failing entry or of anything after it. -/
theorem read_error_aborts_run (fs : FS) (pre post : List Entry) (n : String)
    (hsplit : globTs fs.srcDir ++ globTs fs.testsDir = pre ++ (n, none) :: post)
    (hpre : ∀ e ∈ pre, e.2.isSome) :
    (run fs).2 = false ∧
    getFile (run fs).1.rootFiles "classes.txt" = some (blocksJoin pre) := by
  have hph : phases (globTs fs.srcDir) (globTs fs.testsDir)
      = .error ("" ++ blocksJoin pre) := by
    rw [phases_eq_phasesFrom]
    exact phasesFrom_error_split (globTs fs.srcDir) (globTs fs.testsDir)
      pre post n "" hsplit hpre
  rw [String.empty_append] at hph
  constructor
  · simp [run, hph, Outcome.isSuccess]
  · simp [run, hph, Outcome.content, getFile_setFile_self]

theorem read_error_aborts_run_witness :
    ((globTs fsErr.srcDir ++ globTs fsErr.testsDir =
        [("a.ts", some "A")] ++ ("bad.ts", (none : Option String)) ::
          [("c.ts", some "C")]) ∧
      ∀ e ∈ ([("a.ts", some "A")] : List Entry), e.2.isSome) ∧
    ((run fsErr).2 = false ∧
      getFile (run fsErr).1.rootFiles "classes.txt" =
        some (blocksJoin [("a.ts", some "A")])) :=
  ⟨⟨by decide, by decide⟩,
    read_error_aborts_run fsErr [("a.ts", some "A")] [("c.ts", some "C")]
      "bad.ts" (by decide) (by decide)⟩

/-- C8: the output is truncated only by the first block's
truncate-write open; the `tests/` phase appends, so whenever every
`src/` match is readable the final `classes.txt` extends the complete
`src/` concatenation — even when enumerating or reading a test file
fails mid-phase, the `src/` part is neither re-truncated nor lost. -/
theorem append_phase_preserves_src_output (fs : FS)
    (hsok : ∀ e ∈ globTs fs.srcDir, e.2.isSome) :
    ∃ r, getFile (run fs).1.rootFiles "classes.txt" =
      some (blocksJoin (globTs fs.srcDir) ++ r) := by
  have hp1 := processFiles_all_some (globTs fs.srcDir) "" hsok
  rw [String.empty_append] at hp1
  obtain ⟨r, hr⟩ := processFiles_extends (globTs fs.testsDir)
    (blocksJoin (globTs fs.srcDir))
  refine ⟨r, ?_⟩
  have hph : (phases (globTs fs.srcDir) (globTs fs.testsDir)).content
      = blocksJoin (globTs fs.srcDir) ++ r := by
    simp [phases, hp1, hr]
  simp [run, hph, getFile_setFile_self]

theorem append_phase_preserves_src_output_witness :
    (∀ e ∈ globTs fsErr.srcDir, e.2.isSome) ∧
    ∃ r, getFile (run fsErr).1.rootFiles "classes.txt" =
      some (blocksJoin (globTs fsErr.srcDir) ++ r) :=
  ⟨by decide, append_phase_preserves_src_output fsErr (by decide)⟩

/-- C9: a dotfile is never concatenated even when its name ends in
`.ts`: the fnmatch suffix test accepts `.hidden.ts`, but glob's `*` does
not match a leading dot, so `matchesTsGlob` rejects it, and every entry
a glob returns has a non-dot first character. -/
theorem hidden_files_never_matched :
    List.isSuffixOf ".ts".data ".hidden.ts".data = true ∧
    matchesTsGlob ".hidden.ts" = false ∧
    ∀ (d : Option (List Entry)) (e : Entry),
      e ∈ globTs d → startsWithDot e.1.data = false := by
  refine ⟨by decide, by decide, ?_⟩
  intro d e he
  have hm := mem_globTs d e he
  simp only [matchesTsGlob, Bool.and_eq_true, Bool.not_eq_true'] at hm
  exact hm.2

theorem hidden_files_never_matched_witness :
    (("a.ts", some "A") ∈
      globTs (some [(".hidden.ts", some "H"), ("a.ts", some "A")])) ∧
    startsWithDot ("a.ts" : String).data = false :=
  ⟨by decide,
    hidden_files_never_matched.2.2
      (some [(".hidden.ts", some "H"), ("a.ts", some "A")])
      ("a.ts", some "A") (by decide)⟩

/-- C10: `classes.txt` is never an input of any run: its name fails the
`*.ts` pattern, so no glob result is ever named `classes.txt`, and its
path `root/classes.txt` differs from every path under `root/src` or
`root/tests`, so the output never feeds back into a later run. -/
theorem output_file_never_an_input :
    matchesTsGlob "classes.txt" = false ∧
    (∀ (d : Option (List Entry)) (e : Entry),
      e ∈ globTs d → e.1 ≠ "classes.txt") ∧
    ∀ (root : OsPath) (name : String),
      os_path_join (source_folder root) name ≠ output_file root ∧
      os_path_join (test_folder root) name ≠ output_file root := by
  refine ⟨by decide, ?_, ?_⟩
  · intro d e he heq
    have hm := mem_globTs d e he
    rw [heq] at hm
    exact absurd hm (by decide)
  · intro root name
    constructor
    · intro h
      simp only [os_path_join, source_folder, output_file, script_dir_eq,
        List.append_assoc, List.cons_append, List.nil_append] at h
      have h2 := List.append_cancel_left h
      simp at h2
    · intro h
      simp only [os_path_join, test_folder, output_file, script_dir_eq,
        List.append_assoc, List.cons_append, List.nil_append] at h
      have h2 := List.append_cancel_left h
      simp at h2

theorem output_file_never_an_input_witness :
    (("a.ts", some "A") ∈
      globTs (some [("classes.txt", some "old"), ("a.ts", some "A")])) ∧
    ("a.ts", (some "A" : Option String)).1 ≠ "classes.txt" :=
  ⟨by decide,
    output_file_never_an_input.2.1
      (some [("classes.txt", some "old"), ("a.ts", some "A")])
      ("a.ts", some "A") (by decide)⟩
